import Mathlib

/-!
Verification of the magnifier subsystem of the `kal` overlay utility.

The repository ships two copies of the same magnifier logic
(`magnifier.py` and the inlined copy in `crosshair_gui.py`); the logic
is identical, so one embedding below covers both.  Machine integers of
the source are modelled as `Int`/`Nat`; Python floats used for frame
durations are modelled as `ℚ` (the source only adds, divides and
compares them); Python lists as `List`.
-/

/-! ## FPS controller (`CaptureThread.__init__` / `CaptureThread._adapt_fps`) -/

/-- State of the adaptive FPS controller: `target_fps`, `current_fps`
(both integers in the source config) and the sliding window
`frame_times` of recent overrun durations (Python floats, here `ℚ`). -/
structure FpsState where
  target_fps : ℤ
  current_fps : ℤ
  frame_times : List ℚ
deriving DecidableEq

/-- `CaptureThread.__init__`: `self.current_fps = self.target_fps`,
`self.frame_times = []`. -/
def FpsState.init (t : ℤ) : FpsState :=
  { target_fps := t, current_fps := t, frame_times := [] }

/-- `CaptureThread._adapt_fps(frame_time)`: append the duration, pop the
front of the window when its length exceeds 10, then adjust
`current_fps` by comparing the window mean against 1/30 and 1/50. -/
def adapt_fps (frame_time : ℚ) (s : FpsState) : FpsState :=
  let ts0 := s.frame_times ++ [frame_time]
  let ts := if 10 < ts0.length then ts0.tail else ts0
  let avg := ts.sum / (ts.length : ℚ)
  if 1 / 30 < avg then
    { s with frame_times := ts, current_fps := max 15 (s.current_fps - 5) }
  else if avg < 1 / 50 ∧ s.current_fps < s.target_fps then
    { s with frame_times := ts, current_fps := min s.target_fps (s.current_fps + 5) }
  else
    { s with frame_times := ts }

/-- Feeding a sequence of overrun iteration durations to the controller,
one `_adapt_fps` call per duration. -/
def run_adapt : List ℚ → FpsState → FpsState
  | [], s => s
  | ft :: rest, s => run_adapt rest (adapt_fps ft s)

lemma adapt_fps_target (ft : ℚ) (s : FpsState) :
    (adapt_fps ft s).target_fps = s.target_fps := by
  unfold adapt_fps
  dsimp only
  split_ifs <;> rfl

lemma adapt_fps_bounds (ft : ℚ) (s : FpsState)
    (h15 : 15 ≤ s.target_fps) (hlo : 15 ≤ s.current_fps)
    (hhi : s.current_fps ≤ s.target_fps) :
    15 ≤ (adapt_fps ft s).current_fps ∧
      (adapt_fps ft s).current_fps ≤ s.target_fps := by
  unfold adapt_fps
  dsimp only
  split_ifs <;> dsimp only <;> constructor <;> omega

lemma run_adapt_bounds (fts : List ℚ) (s : FpsState)
    (h15 : 15 ≤ s.target_fps) (hlo : 15 ≤ s.current_fps)
    (hhi : s.current_fps ≤ s.target_fps) :
    (run_adapt fts s).target_fps = s.target_fps ∧
      15 ≤ (run_adapt fts s).current_fps ∧
      (run_adapt fts s).current_fps ≤ s.target_fps := by
  induction fts generalizing s with
  | nil => exact ⟨rfl, hlo, hhi⟩
  | cons ft rest ih =>
    have hb := adapt_fps_bounds ft s h15 hlo hhi
    have ht := adapt_fps_target ft s
    have := ih (adapt_fps ft s) (by rw [ht]; exact h15) hb.1 (by rw [ht]; exact hb.2)
    refine ⟨?_, this.2.1, ?_⟩
    · rw [show run_adapt (ft :: rest) s = run_adapt rest (adapt_fps ft s) from rfl,
        this.1, ht]
    · rw [show run_adapt (ft :: rest) s = run_adapt rest (adapt_fps ft s) from rfl]
      have := this.2.2
      rw [ht] at this
      exact this

/-- C1 (counterexample): the claim quantifies over every `targetFps > 0`,
but for `targetFps = 10` a single slow iteration (duration 1 s) drives
`current_fps` to `max 15 (10 - 5) = 15`, which exceeds `targetFps`. -/
theorem c1_counterexample :
    (0 : ℤ) < (FpsState.init 10).target_fps ∧
      (FpsState.init 10).target_fps < (adapt_fps 1 (FpsState.init 10)).current_fps := by
  refine ⟨by norm_num [FpsState.init], ?_⟩
  have h : (1 : ℚ) / 30 < ([(1 : ℚ)].sum / (([(1 : ℚ)].length : ℕ) : ℚ)) := by
    norm_num
  simp [FpsState.init, adapt_fps]
  norm_num

/-- C1 (amended): for every `targetFps ≥ 15` (with `current_fps`
initialized to `targetFps`) and every sequence of iteration durations
fed to `_adapt_fps`, `current_fps` never drops below 15 nor exceeds
`targetFps`. -/
theorem c1_fps_bounds_amended (t : ℤ) (ht : 15 ≤ t) (durations : List ℚ) :
    15 ≤ (run_adapt durations (FpsState.init t)).current_fps ∧
      (run_adapt durations (FpsState.init t)).current_fps ≤ t := by
  have := run_adapt_bounds durations (FpsState.init t) ht
    (by simpa [FpsState.init] using ht) (by simp [FpsState.init])
  exact ⟨this.2.1, this.2.2⟩

/-- Witness for C1 (amended) at `targetFps = 60` with one 40 ms overrun. -/
theorem c1_fps_bounds_amended_witness :
    (15 : ℤ) ≤ 60 ∧
      (15 ≤ (run_adapt [1 / 25] (FpsState.init 60)).current_fps ∧
        (run_adapt [1 / 25] (FpsState.init 60)).current_fps ≤ 60) :=
  ⟨by norm_num, c1_fps_bounds_amended 60 (by norm_num) [1 / 25]⟩

/-- The adaptation step as the spec words it: the window keeps the 10
most recent overrun durations; if the window mean exceeds 1/30 s the
rate drops by 5 with floor 15; if it is below 1/50 s and `current_fps`
is below `target_fps` the rate rises by 5 capped at `target_fps`;
otherwise the rate is unchanged. -/
def adapt_fps_spec (frame_time : ℚ) (s : FpsState) : FpsState :=
  let w := s.frame_times ++ [frame_time]
  let w10 := w.drop (w.length - 10)
  let mean := w10.sum / (w10.length : ℚ)
  if 1 / 30 < mean then
    { s with frame_times := w10, current_fps := max 15 (s.current_fps - 5) }
  else if mean < 1 / 50 ∧ s.current_fps < s.target_fps then
    { s with frame_times := w10, current_fps := min s.target_fps (s.current_fps + 5) }
  else
    { s with frame_times := w10 }

lemma adapt_fps_window (ft : ℚ) (s : FpsState) :
    (adapt_fps ft s).frame_times =
      if 10 < (s.frame_times ++ [ft]).length then (s.frame_times ++ [ft]).tail
      else (s.frame_times ++ [ft]) := by
  unfold adapt_fps
  dsimp only
  split_ifs <;> rfl

/-- C2: on every state whose window holds at most 10 durations (true of
all reachable states: the bound is preserved, and the initial window is
empty), `_adapt_fps` agrees with the spec's description of the
adaptation step, and with `targetFps = 60` the first overrun duration
of 40 ms (1/25 s) drives `current_fps` from 60 to 55. -/
theorem c2_adapt_spec (frame_time : ℚ) (s : FpsState)
    (hlen : s.frame_times.length ≤ 10) :
    adapt_fps frame_time s = adapt_fps_spec frame_time s ∧
      (adapt_fps frame_time s).frame_times.length ≤ 10 ∧
      (FpsState.init 60).current_fps = 60 ∧
      (adapt_fps (1 / 25) (FpsState.init 60)).current_fps = 55 := by
  have hkey : (if 10 < (s.frame_times ++ [frame_time]).length then
        (s.frame_times ++ [frame_time]).tail else (s.frame_times ++ [frame_time])) =
      (s.frame_times ++ [frame_time]).drop
        ((s.frame_times ++ [frame_time]).length - 10) := by
    rcases Nat.lt_or_ge 10 (s.frame_times ++ [frame_time]).length with h | h
    · have hl1 : (s.frame_times ++ [frame_time]).length = s.frame_times.length + 1 := by
        simp
      have h11 : (s.frame_times ++ [frame_time]).length = 11 := by omega
      rw [if_pos h, h11]
      simp [List.drop_one]
    · rw [if_neg (by omega)]
      have : (s.frame_times ++ [frame_time]).length - 10 = 0 := by omega
      rw [this, List.drop_zero]
  refine ⟨?_, ?_, rfl, ?_⟩
  · unfold adapt_fps adapt_fps_spec
    dsimp only
    rw [hkey]
  · rw [adapt_fps_window]
    split_ifs with h
    · simp only [List.length_tail, List.length_append, List.length_cons,
        List.length_nil] at h ⊢
      omega
    · simp only [List.length_append, List.length_cons, List.length_nil] at h ⊢
      omega
  · norm_num [adapt_fps, FpsState.init]

/-- Witness for C2 at the empty-window initial state. -/
theorem c2_adapt_spec_witness :
    (FpsState.init 60).frame_times.length ≤ 10 ∧
      adapt_fps (1 / 25) (FpsState.init 60) = adapt_fps_spec (1 / 25) (FpsState.init 60) :=
  ⟨by decide, (c2_adapt_spec (1 / 25) (FpsState.init 60) (by decide)).1⟩

/-! ## Magnifier window controller (`MagnifierWindow`) -/

/-- Observable window/loop state of one `MagnifierWindow` plus two ghost
counters: `sched_count` counts `QTimer.singleShot(100, _set_click_through)`
scheduling events, `start_count` counts actual `QThread` starts (Qt's
`QThread.start` is a no-op on an already-running thread). -/
structure MagState where
  visible : Bool
  thread_running : Bool
  click_through_applied : Bool
  sched_count : ℕ
  start_count : ℕ
deriving DecidableEq

/-- State after `MagnifierWindow.__init__`: window hidden
(`self.hide()`), capture thread constructed but not started,
`self._click_through_applied = False`. -/
def mag_init : MagState :=
  { visible := false, thread_running := false, click_through_applied := false,
    sched_count := 0, start_count := 0 }

/-- `MagnifierWindow.show_magnifier`: no-op when visible; otherwise
start the capture thread if it is not running, show and raise the
window, and, when `_click_through_applied` is still false, schedule the
click-through styling and set the flag. -/
def show_magnifier (s : MagState) : MagState :=
  if s.visible then s
  else
    let s1 := if s.thread_running then s
      else { s with thread_running := true, start_count := s.start_count + 1 }
    let s2 := { s1 with visible := true }
    if s2.click_through_applied then s2
    else { s2 with click_through_applied := true, sched_count := s2.sched_count + 1 }

/-- `MagnifierWindow.hide_magnifier`: no-op when hidden; otherwise stop
the capture thread and hide the window. -/
def hide_magnifier (s : MagState) : MagState :=
  if s.visible then { s with thread_running := false, visible := false } else s

/-- `MagnifierWindow.toggle`: when visible, stop the thread and hide;
when hidden, start the thread (`QThread.start`, a no-op when already
running) and show the window.  Note: `toggle` never touches
`_click_through_applied`. -/
def toggle (s : MagState) : MagState :=
  if s.visible then { s with thread_running := false, visible := false }
  else
    { s with thread_running := true,
             start_count := s.start_count + (if s.thread_running then 0 else 1),
             visible := true }

/-- The three public visibility operations of the controller. -/
inductive MagOp where
  | op_show
  | op_hide
  | op_toggle
deriving DecidableEq

def mag_step (s : MagState) : MagOp → MagState
  | MagOp.op_show => show_magnifier s
  | MagOp.op_hide => hide_magnifier s
  | MagOp.op_toggle => toggle s

/-- Running a sequence of show/hide/toggle operations. -/
def run_ops : List MagOp → MagState → MagState
  | [], s => s
  | op :: rest, s => run_ops rest (mag_step s op)

/-- C5: starting from a Hidden state with the capture loop stopped,
`toggle` twice returns to Hidden, and the loop is stopped again after
the second call. -/
theorem c5_toggle_round_trip (s : MagState)
    (hv : s.visible = false) (hr : s.thread_running = false) :
    (toggle s).visible = true ∧
      (toggle (toggle s)).visible = false ∧
      (toggle (toggle s)).thread_running = false := by
  simp [toggle, hv]

/-- Witness for C5 at the freshly constructed window state. -/
theorem c5_toggle_round_trip_witness :
    mag_init.visible = false ∧ mag_init.thread_running = false ∧
      ((toggle mag_init).visible = true ∧
        (toggle (toggle mag_init)).visible = false ∧
        (toggle (toggle mag_init)).thread_running = false) :=
  ⟨rfl, rfl, c5_toggle_round_trip mag_init rfl rfl⟩

/-- C6: from a Hidden state with the loop stopped, one
`show_magnifier` call leaves the window Visible with the loop running
and exactly one new thread start; a second call is a no-op (the state,
including the ghost start counter, is unchanged, so no duplicate loop
instance is started). -/
theorem c6_show_idempotent (s : MagState)
    (hv : s.visible = false) (hr : s.thread_running = false) :
    show_magnifier (show_magnifier s) = show_magnifier s ∧
      (show_magnifier s).visible = true ∧
      (show_magnifier s).thread_running = true ∧
      (show_magnifier s).start_count = s.start_count + 1 := by
  have hvis : (show_magnifier s).visible = true := by
    by_cases hc : s.click_through_applied <;> simp [show_magnifier, hv, hr, hc]
  refine ⟨?_, hvis, ?_, ?_⟩
  · conv_lhs => rw [show_magnifier]
    rw [if_pos hvis]
  · by_cases hc : s.click_through_applied <;> simp [show_magnifier, hv, hr, hc]
  · by_cases hc : s.click_through_applied <;> simp [show_magnifier, hv, hr, hc]

/-- Witness for C6 at the freshly constructed window state. -/
theorem c6_show_idempotent_witness :
    mag_init.visible = false ∧ mag_init.thread_running = false ∧
      (show_magnifier (show_magnifier mag_init) = show_magnifier mag_init ∧
        (show_magnifier mag_init).visible = true ∧
        (show_magnifier mag_init).thread_running = true ∧
        (show_magnifier mag_init).start_count = mag_init.start_count + 1) :=
  ⟨rfl, rfl, c6_show_idempotent mag_init rfl rfl⟩

lemma run_ops_cons (op : MagOp) (rest : List MagOp) (s : MagState) :
    run_ops (op :: rest) s = run_ops rest (mag_step s op) := rfl


lemma mag_step_cases (s : MagState) (op : MagOp) :
    ((mag_step s op).sched_count = s.sched_count ∧
        (mag_step s op).click_through_applied = s.click_through_applied) ∨
      ((mag_step s op).sched_count = s.sched_count + 1 ∧
        (mag_step s op).click_through_applied = true ∧ op = MagOp.op_show ∧
        s.visible = false ∧ s.click_through_applied = false) := by
  cases op with
  | op_show =>
    by_cases hv : s.visible
    · left
      simp [mag_step, show_magnifier, hv]
    · by_cases hc : s.click_through_applied
      · left
        by_cases hr : s.thread_running <;>
          simp [mag_step, show_magnifier, hv, hc, hr]
      · right
        refine ⟨?_, ?_, rfl, by simp [hv], by simp [hc]⟩ <;>
          by_cases hr : s.thread_running <;>
            simp [mag_step, show_magnifier, hv, hc, hr]
  | op_hide =>
    left
    by_cases hv : s.visible <;> simp [mag_step, hide_magnifier, hv]
  | op_toggle =>
    left
    by_cases hv : s.visible <;> simp [mag_step, toggle, hv]

lemma mag_step_inv (s : MagState) (op : MagOp)
    (h : (s.click_through_applied = true ↔ 1 ≤ s.sched_count) ∧ s.sched_count ≤ 1) :
    ((mag_step s op).click_through_applied = true ↔ 1 ≤ (mag_step s op).sched_count) ∧
      (mag_step s op).sched_count ≤ 1 := by
  rcases mag_step_cases s op with ⟨hs, ha⟩ | ⟨hs, ha, _, _, hc⟩
  · rw [hs, ha]
    exact h
  · have h0 : s.sched_count = 0 := by
      rcases Nat.eq_zero_or_pos s.sched_count with h0 | hpos
      · exact h0
      · exact absurd (h.1.mpr hpos) (by simp [hc])
    rw [hs, ha, h0]
    simp

lemma run_ops_sched (ops : List MagOp) (s : MagState)
    (h : (s.click_through_applied = true ↔ 1 ≤ s.sched_count) ∧ s.sched_count ≤ 1) :
    (((run_ops ops s).click_through_applied = true ↔ 1 ≤ (run_ops ops s).sched_count) ∧
        (run_ops ops s).sched_count ≤ 1) ∧
      (1 ≤ (run_ops ops s).sched_count ↔
        (1 ≤ s.sched_count ∨
          ∃ l r, ops = l ++ MagOp.op_show :: r ∧ (run_ops l s).visible = false)) := by
  induction ops generalizing s with
  | nil =>
    refine ⟨h, ?_⟩
    constructor
    · exact fun h1 => Or.inl h1
    · rintro (h1 | ⟨l, r, hlr, -⟩)
      · exact h1
      · exact absurd hlr (by simp)
  | cons op rest ih =>
    have h' := mag_step_inv s op h
    obtain ⟨ih1, ih2⟩ := ih (mag_step s op) h'
    refine ⟨ih1, ?_⟩
    rw [run_ops_cons, ih2]
    constructor
    · rintro (hs' | ⟨l, r, hrest, hvis⟩)
      · rcases mag_step_cases s op with ⟨heq, -⟩ | ⟨-, -, hop, hvis, -⟩
        · exact Or.inl (by omega)
        · subst hop
          exact Or.inr ⟨[], rest, rfl, hvis⟩
      · refine Or.inr ⟨op :: l, r, by rw [hrest]; rfl, ?_⟩
        rw [run_ops_cons]
        exact hvis
    · rintro (hs | ⟨l, r, hops, hvis⟩)
      · left
        rcases mag_step_cases s op with ⟨heq, -⟩ | ⟨heq, -, -, -, -⟩ <;> omega
      · cases l with
        | nil =>
          simp only [List.nil_append, List.cons.injEq] at hops
          obtain ⟨hop, hrest⟩ := hops
          left
          simp only [run_ops] at hvis
          rcases mag_step_cases s op with ⟨heq, ha⟩ | ⟨heq, -, -, -, -⟩
          · subst hop
            by_cases hc : s.click_through_applied
            · rw [heq]
              exact h.1.mp hc
            · exfalso
              have : (mag_step s MagOp.op_show).click_through_applied = true := by
                by_cases hr : s.thread_running <;>
                  simp [mag_step, show_magnifier, hvis, hc, hr]
              rw [ha] at this
              exact hc this
          · rw [heq]
            omega
        | cons a l2 =>
          simp only [List.cons_append, List.cons.injEq] at hops
          obtain ⟨hop, hrest⟩ := hops
          subst hop
          refine Or.inr ⟨l2, r, hrest, ?_⟩
          rw [run_ops_cons] at hvis
          exact hvis

/-- C4 (counterexample): the claim says click-through styling is
scheduled on the first Hidden→Visible transition *whichever operation
causes it*; but when that first transition is caused by `toggle`, no
styling is scheduled: after `[toggle]` from the initial state the
window is Visible yet the scheduling count is still 0. -/
theorem c4_counterexample :
    mag_init.visible = false ∧
      (run_ops [MagOp.op_toggle] mag_init).visible = true ∧
      (run_ops [MagOp.op_toggle] mag_init).sched_count = 0 := by
  decide

/-- C4 (amended): over any sequence of show/hide/toggle operations,
click-through styling is scheduled at most once per window lifetime,
and it is scheduled (exactly once) precisely when some `show_magnifier`
call in the sequence executes while the window is Hidden — i.e. on the
first Hidden→Visible transition caused by `show_magnifier`; a
transition caused by `toggle` never schedules it. -/
theorem c4_click_through_amended (ops : List MagOp) :
    (run_ops ops mag_init).sched_count ≤ 1 ∧
      ((run_ops ops mag_init).sched_count = 1 ↔
        ∃ l r, ops = l ++ MagOp.op_show :: r ∧ (run_ops l mag_init).visible = false) := by
  have h := run_ops_sched ops mag_init (by simp [mag_init])
  obtain ⟨⟨hiff, hle⟩, hiff2⟩ := h
  have h0 : mag_init.sched_count = 0 := rfl
  rw [h0] at hiff2
  refine ⟨hle, ?_⟩
  constructor
  · intro h1
    rcases hiff2.mp (by omega) with h882 | hx
    · omega
    · exact hx
  · intro hx
    have := hiff2.mpr (Or.inr hx)
    omega

/-! ## IPC reader (`ipc_reader` in the `--ipc` mode) -/

/-- A character Python's `str.strip()` removes (ASCII whitespace; the
commands of the protocol are ASCII). -/
def isPySpace (c : Char) : Bool :=
  c = ' ' || c = '\t' || c = '\n' || c = '\r' || c = '\x0b' || c = '\x0c'

/-- Python `str.strip()` on the characters of a line: drop whitespace
from both ends. -/
def pyStrip (l : List Char) : List Char :=
  ((l.dropWhile isPySpace).reverse.dropWhile isPySpace).reverse

/-- The two window slots the reader can queue onto the window's owning
Qt context via `QMetaObject.invokeMethod(..., QueuedConnection)`. -/
inductive Slot where
  | slot_show
  | slot_hide
deriving DecidableEq

/-- Result of running the reader on the whole stdin contents: the slot
invocations queued onto the window context (in order), the number of
input lines read before the reader stopped, and whether `app.quit()`
was called. -/
structure IpcResult where
  queued : List Slot
  consumed : ℕ
  quit_called : Bool
deriving DecidableEq

/-- `ipc_reader`: block on each stdin line, strip it, queue
`show_magnifier` on `show` and `hide_magnifier` on `hide`, call
`app.quit()` and stop on `quit` or an empty (stripped) line; ignore
anything else.  At end of input `sys.stdin.readline()` returns the
empty string, which takes the `quit` branch, so the empty input list
also quits. -/
def ipc_reader : List (List Char) → IpcResult
  | [] => { queued := [], consumed := 0, quit_called := true }
  | l :: rest =>
    let t := pyStrip l
    if t = "show".data then
      let r := ipc_reader rest
      { queued := Slot.slot_show :: r.queued, consumed := r.consumed + 1,
        quit_called := r.quit_called }
    else if t = "hide".data then
      let r := ipc_reader rest
      { queued := Slot.slot_hide :: r.queued, consumed := r.consumed + 1,
        quit_called := r.quit_called }
    else if t = "quit".data || t = [] then
      { queued := [], consumed := 1, quit_called := true }
    else
      let r := ipc_reader rest
      { queued := r.queued, consumed := r.consumed + 1, quit_called := r.quit_called }

/-- The queued invocation a single line produces, if any. -/
def line_dispatch (l : List Char) : Option Slot :=
  if pyStrip l = "show".data then some Slot.slot_show
  else if pyStrip l = "hide".data then some Slot.slot_hide
  else none

/-- Whether a line makes the reader quit. -/
def is_term_line (l : List Char) : Bool :=
  pyStrip l = "quit".data || pyStrip l = []


lemma ipc_reader_cons_show (l : List Char) (rest : List (List Char))
    (hs : pyStrip l = "show".data) :
    ipc_reader (l :: rest) =
      { queued := Slot.slot_show :: (ipc_reader rest).queued,
        consumed := (ipc_reader rest).consumed + 1,
        quit_called := (ipc_reader rest).quit_called } := by
  simp only [ipc_reader]
  rw [if_pos hs]

lemma ipc_reader_cons_hide (l : List Char) (rest : List (List Char))
    (hs : ¬pyStrip l = "show".data) (hh : pyStrip l = "hide".data) :
    ipc_reader (l :: rest) =
      { queued := Slot.slot_hide :: (ipc_reader rest).queued,
        consumed := (ipc_reader rest).consumed + 1,
        quit_called := (ipc_reader rest).quit_called } := by
  simp only [ipc_reader]
  rw [if_neg hs, if_pos hh]

lemma ipc_reader_cons_term (l : List Char) (rest : List (List Char))
    (hs : ¬pyStrip l = "show".data) (hh : ¬pyStrip l = "hide".data)
    (ht : (pyStrip l = "quit".data || pyStrip l = []) = true) :
    ipc_reader (l :: rest) = { queued := [], consumed := 1, quit_called := true } := by
  simp only [ipc_reader]
  rw [if_neg hs, if_neg hh, if_pos ht]

lemma ipc_reader_cons_other (l : List Char) (rest : List (List Char))
    (hs : ¬pyStrip l = "show".data) (hh : ¬pyStrip l = "hide".data)
    (ht : ¬((pyStrip l = "quit".data || pyStrip l = []) = true)) :
    ipc_reader (l :: rest) =
      { queued := (ipc_reader rest).queued,
        consumed := (ipc_reader rest).consumed + 1,
        quit_called := (ipc_reader rest).quit_called } := by
  simp only [ipc_reader]
  rw [if_neg hs, if_neg hh, if_neg ht]

lemma takeWhile_len_le {α : Type} (p : α → Bool) :
    ∀ l : List α, (l.takeWhile p).length ≤ l.length
  | [] => le_refl 0
  | a :: l => by
    rw [List.takeWhile_cons]
    split_ifs
    · simpa using takeWhile_len_le p l
    · simp

/-- C7: for every stdin contents, the reader queues `show_magnifier`
for each `show` line and `hide_magnifier` for each `hide` line (in
order, as queued cross-context invocations, never direct calls —
`queued` is a message list handed to the window's owning context), it
always ends up calling `app.quit()`, and it stops exactly at the first
line that strips to `quit` or to the empty string (consuming only that
far), or at end of input when no such line exists. -/
theorem c7_ipc_reader (lines : List (List Char)) :
    (ipc_reader lines).queued =
        (lines.takeWhile (fun l => !is_term_line l)).filterMap line_dispatch ∧
      (ipc_reader lines).quit_called = true ∧
      (ipc_reader lines).consumed =
        (lines.takeWhile (fun l => !is_term_line l)).length +
          (if (lines.takeWhile (fun l => !is_term_line l)).length < lines.length
            then 1 else 0) := by
  induction lines with
  | nil => exact ⟨rfl, rfl, by simp [ipc_reader]⟩
  | cons l rest ih =>
    obtain ⟨ih1, ih2, ih3⟩ := ih
    have hb := takeWhile_len_le (fun l => !is_term_line l) rest
    by_cases hs : pyStrip l = "show".data
    · have hterm : (fun l => !is_term_line l) l = true := by
        simp [is_term_line, hs]
      have hdisp : line_dispatch l = some Slot.slot_show := by
        simp [line_dispatch, hs]
      rw [ipc_reader_cons_show l rest hs]
      refine ⟨?_, ih2, ?_⟩
      · rw [@List.takeWhile_cons_of_pos (List Char) (fun l => !is_term_line l) l rest hterm, List.filterMap_cons, hdisp, ih1]
      · rw [@List.takeWhile_cons_of_pos (List Char) (fun l => !is_term_line l) l rest hterm]
        simp only [List.length_cons]
        split_ifs at ih3 ⊢ <;> omega
    · by_cases hh : pyStrip l = "hide".data
      · have hterm : (fun l => !is_term_line l) l = true := by
          simp [is_term_line, hh]
        have hdisp : line_dispatch l = some Slot.slot_hide := by
          rw [line_dispatch, if_neg hs, if_pos hh]
        rw [ipc_reader_cons_hide l rest hs hh]
        refine ⟨?_, ih2, ?_⟩
        · rw [@List.takeWhile_cons_of_pos (List Char) (fun l => !is_term_line l) l rest hterm, List.filterMap_cons, hdisp, ih1]
        · rw [@List.takeWhile_cons_of_pos (List Char) (fun l => !is_term_line l) l rest hterm]
          simp only [List.length_cons]
          split_ifs at ih3 ⊢ <;> omega
      · by_cases ht : (pyStrip l = "quit".data || pyStrip l = []) = true
        · have hterm : (fun l => !is_term_line l) l = false := by
            simp only [is_term_line]
            simp [ht]
          rw [ipc_reader_cons_term l rest hs hh ht]
          refine ⟨?_, rfl, ?_⟩
          · rw [@List.takeWhile_cons_of_neg (List Char) (fun l => !is_term_line l) l rest (by simp [hterm])]
            rfl
          · rw [@List.takeWhile_cons_of_neg (List Char) (fun l => !is_term_line l) l rest (by simp [hterm])]
            simp
        · have hterm : (fun l => !is_term_line l) l = true := by
            simp only [is_term_line]
            simpa using ht
          have hdisp : line_dispatch l = none := by
            simp only [ht, Bool.or_eq_true, decide_eq_true_eq] at ht
            rw [line_dispatch, if_neg hs, if_neg hh]
          rw [ipc_reader_cons_other l rest hs hh ht]
          refine ⟨?_, ih2, ?_⟩
          · rw [@List.takeWhile_cons_of_pos (List Char) (fun l => !is_term_line l) l rest hterm, List.filterMap_cons, hdisp, ih1]
          · rw [@List.takeWhile_cons_of_pos (List Char) (fun l => !is_term_line l) l rest hterm]
            simp only [List.length_cons]
            split_ifs at ih3 ⊢ <;> omega

lemma pyStrip_all_space (l : List Char) (h : ∀ c ∈ l, isPySpace c = true) :
    pyStrip l = [] := by
  have h1 : l.dropWhile isPySpace = [] :=
    List.dropWhile_eq_nil_iff.mpr (by simpa using h)
  unfold pyStrip
  rw [h1]
  rfl

/-- C10: the reader strips surrounding whitespace before classifying a
line: a line of only whitespace strips to the empty string and makes
the reader quit after consuming just that line; any other line whose
stripped content is none of `show`, `hide`, `quit` and not empty is
silently ignored — nothing is queued for it, no state changes, and the
reader continues with the remaining lines. -/
theorem c10_strip_ignore (l : List Char) (rest : List (List Char)) :
    ((∀ c ∈ l, isPySpace c = true) →
        pyStrip l = [] ∧
          ipc_reader (l :: rest) = { queued := [], consumed := 1, quit_called := true }) ∧
      (pyStrip l ≠ "show".data → pyStrip l ≠ "hide".data → pyStrip l ≠ "quit".data →
        pyStrip l ≠ [] →
          line_dispatch l = none ∧
            (ipc_reader (l :: rest)).queued = (ipc_reader rest).queued ∧
            (ipc_reader (l :: rest)).consumed = (ipc_reader rest).consumed + 1 ∧
            (ipc_reader (l :: rest)).quit_called = (ipc_reader rest).quit_called) := by
  constructor
  · intro hws
    have hnil := pyStrip_all_space l hws
    refine ⟨hnil, ?_⟩
    exact ipc_reader_cons_term l rest (by simp [hnil]) (by simp [hnil])
      (by simp [hnil])
  · intro hshow hhide hquit hempty
    have hother := ipc_reader_cons_other l rest hshow hhide
      (by simp [hquit, hempty])
    refine ⟨?_, by rw [hother], by rw [hother], by rw [hother]⟩
    rw [line_dispatch, if_neg hshow, if_neg hhide]

/-- Witness for C10: a whitespace-only line terminates the reader, and
the unrecognized line `noop` is skipped with nothing queued. -/
theorem c10_strip_ignore_witness :
    (pyStrip [' ', '\t'] = [] ∧
        ipc_reader [[' ', '\t']] = { queued := [], consumed := 1, quit_called := true }) ∧
      (line_dispatch "noop".data = none ∧
        (ipc_reader ["noop".data]).queued = (ipc_reader []).queued ∧
        (ipc_reader ["noop".data]).consumed = (ipc_reader []).consumed + 1 ∧
        (ipc_reader ["noop".data]).quit_called = (ipc_reader []).quit_called) :=
  ⟨(c10_strip_ignore [' ', '\t'] []).1 (by decide),
    (c10_strip_ignore "noop".data []).2 (by decide) (by decide) (by decide) (by decide)⟩

/-! ## Monitor selection and geometry (`CaptureThread.run`,
`MagnifierWindow._position_window`) -/

/-- An `mss` monitor dict or capture-region dict: `left`, `top`,
`width`, `height` in virtual-desktop coordinates. -/
structure ScreenRect where
  left : ℤ
  top : ℤ
  width : ℤ
  height : ℤ
deriving DecidableEq

/-- Python list indexing `xs[i]`: non-negative indices from the front,
negative indices from the end, `none` models the `IndexError`. -/
def pyIndex {α : Type} (xs : List α) (i : ℤ) : Option α :=
  if 0 ≤ i then xs.get? i.toNat
  else if -i ≤ (xs.length : ℤ) then xs.get? (xs.length - (-i).toNat) else none

/-- `try: mon = sct.monitors[idx] except IndexError: mon = sct.monitors[1]`
(used identically in `CaptureThread.run` and `_position_window`). -/
def select_monitor (mons : List ScreenRect) (idx : ℤ) : Option ScreenRect :=
  match pyIndex mons idx with
  | some m => some m
  | none => pyIndex mons 1

/-- The capture region computed in `CaptureThread.run`: a
`capture_size`-square centered on the monitor (Python `//` is floor
division, `Int.fdiv`). -/
def capture_region_of (mon : ScreenRect) (capture_size : ℤ) : ScreenRect :=
  { left := mon.left + (mon.width - capture_size).fdiv 2,
    top := mon.top + (mon.height - capture_size).fdiv 2,
    width := capture_size,
    height := capture_size }

/-- The window geometry computed in `_position_window`: a
`display_size`-square whose center is the monitor center plus the
configured offsets. -/
def window_geometry (mon : ScreenRect) (display_size offset_x offset_y : ℤ) : ScreenRect :=
  { left := mon.left + mon.width.fdiv 2 - display_size.fdiv 2 + offset_x,
    top := mon.top + mon.height.fdiv 2 - display_size.fdiv 2 + offset_y,
    width := display_size,
    height := display_size }

/-- C8: on a system with two monitors (`sct.monitors` has 3 entries:
the virtual screen at index 0 plus the two monitors), requesting
`monitor_index = 99` selects the same monitor as requesting index 1, so
the capture loop computes the same capture region and the window is
positioned identically. -/
theorem c8_monitor_fallback (mons : List ScreenRect) (h : mons.length = 3)
    (cs ds ox oy : ℤ) :
    select_monitor mons 99 = select_monitor mons 1 ∧
      (select_monitor mons 99).map (fun m => capture_region_of m cs) =
        (select_monitor mons 1).map (fun m => capture_region_of m cs) ∧
      (select_monitor mons 99).map (fun m => window_geometry m ds ox oy) =
        (select_monitor mons 1).map (fun m => window_geometry m ds ox oy) := by
  match mons, h with
  | [a, b, c], _ =>
    refine ⟨rfl, rfl, rfl⟩

/-- Witness for C8 on a concrete two-monitor layout. -/
theorem c8_monitor_fallback_witness :
    [⟨0, 0, 5120, 1440⟩, ⟨0, 0, 2560, 1440⟩, (⟨2560, 0, 2560, 1440⟩ : ScreenRect)].length = 3 ∧
      select_monitor [⟨0, 0, 5120, 1440⟩, ⟨0, 0, 2560, 1440⟩, ⟨2560, 0, 2560, 1440⟩] 99 =
        select_monitor [⟨0, 0, 5120, 1440⟩, ⟨0, 0, 2560, 1440⟩, ⟨2560, 0, 2560, 1440⟩] 1 :=
  ⟨rfl, (c8_monitor_fallback
    [⟨0, 0, 5120, 1440⟩, ⟨0, 0, 2560, 1440⟩, ⟨2560, 0, 2560, 1440⟩]
    rfl 200 300 0 0).1⟩

/-- C9: a negative `monitor_index` whose magnitude is at most the
number of entries raises no `IndexError`, so the fallback branch is not
taken: both the capture loop and the window positioning use the monitor
found by indexing from the end of the list (for `-1`, the last entry),
not the default monitor 1. -/
theorem c9_negative_index (mons : List ScreenRect) (k : ℕ)
    (h1 : 0 < k) (h2 : k ≤ mons.length) :
    pyIndex mons (-(k : ℤ)) = mons.get? (mons.length - k) ∧
      pyIndex mons (-(k : ℤ)) ≠ none ∧
      select_monitor mons (-(k : ℤ)) = mons.get? (mons.length - k) := by
  have hneg : ¬(0 : ℤ) ≤ -(k : ℤ) := by omega
  have hin : -(-(k : ℤ)) ≤ (mons.length : ℤ) := by omega
  have hidx : pyIndex mons (-(k : ℤ)) = mons.get? (mons.length - k) := by
    rw [pyIndex, if_neg hneg, if_pos hin]
    congr 1
    omega
  have hsome : mons.get? (mons.length - k) ≠ none := by
    rw [ne_eq, List.get?_eq_none]
    omega
  refine ⟨hidx, by rw [hidx]; exact hsome, ?_⟩
  rw [select_monitor, hidx]
  rcases hm : mons.get? (mons.length - k) with - | m
  · exact absurd hm hsome
  · rfl

/-- Witness for C9: with two monitors, index `-1` selects the last
monitor (index 2), not monitor 1. -/
theorem c9_negative_index_witness :
    (0 < 1 ∧ 1 ≤ ([⟨0, 0, 5120, 1440⟩, ⟨0, 0, 2560, 1440⟩,
        (⟨2560, 0, 2560, 1440⟩ : ScreenRect)] : List ScreenRect).length) ∧
      select_monitor [⟨0, 0, 5120, 1440⟩, ⟨0, 0, 2560, 1440⟩, ⟨2560, 0, 2560, 1440⟩] (-1) =
        some ⟨2560, 0, 2560, 1440⟩ ∧
      select_monitor [⟨0, 0, 5120, 1440⟩, ⟨0, 0, 2560, 1440⟩, ⟨2560, 0, 2560, 1440⟩] (-1) ≠
        select_monitor [⟨0, 0, 5120, 1440⟩, ⟨0, 0, 2560, 1440⟩, ⟨2560, 0, 2560, 1440⟩] 1 := by
  refine ⟨⟨by decide, by decide⟩, ?_, by decide⟩
  have h3 := (c9_negative_index
    [⟨0, 0, 5120, 1440⟩, ⟨0, 0, 2560, 1440⟩, ⟨2560, 0, 2560, 1440⟩] 1
    (by decide) (by decide)).2.2
  have h4 : (-((1 : ℕ) : ℤ)) = (-1 : ℤ) := by norm_num
  rw [h4] at h3
  rw [h3]
  rfl

/-! ## Capture-loop iteration (`CaptureThread.run` body) -/

/-- A pixel buffer as produced along the pipeline: height, width,
channel count (the shape `(h, w, ch)` of the numpy array) and the pixel
contents. -/
structure Img where
  h : ℕ
  w : ℕ
  ch : ℕ
  px : ℕ → ℕ → ℕ → ℤ

/-- `sct.grab(capture_region)` followed by `np.array`: a BGRA buffer
(4 channels) of the region's size sampled from the screen contents. -/
def mss_grab (screen : ℤ → ℤ → ℕ → ℤ) (r : ScreenRect) : Img :=
  { h := r.height.toNat, w := r.width.toNat, ch := 4,
    px := fun y x c => screen (r.top + (y : ℤ)) (r.left + (x : ℤ)) c }

/-- `cv2.resize(img, dsize)` (any interpolation): the output buffer has
exactly the requested `dsize = (width, height)`; pixels are sampled
from the source grid. -/
def cv_resize (img : Img) (dw dh : ℕ) : Img :=
  { h := dh, w := dw, ch := img.ch,
    px := fun y x c => img.px (y * img.h / dh) (x * img.w / dw) c }

/-- The GPU path `upload → cv2.cuda.resize → download`: same interface
contract as `cv2.resize` — the downloaded buffer has the requested
`dsize`. -/
def cuda_resize (img : Img) (dw dh : ℕ) : Img :=
  cv_resize img dw dh

/-- `cv2.cvtColor(img, cv2.COLOR_BGR2RGB)`: same shape, channels
reversed. -/
def cvt_bgr2rgb (img : Img) : Img :=
  { img with px := fun y x c => img.px y x (2 - c) }

/-- One iteration of the capture loop: grab the region, drop the alpha
channel when present (`img[:, :, :3]`), resize to
`(display_size, display_size)` — taking the GPU path when CUDA is
available, falling back to the CPU resize for the frame on which the
GPU path raises — then convert BGR to RGB.  The emitted `QImage` uses
the resulting width and height. -/
def capture_iteration (screen : ℤ → ℤ → ℕ → ℤ) (region : ScreenRect)
    (display_size : ℕ) (cuda_available gpu_fails : Bool) : Img :=
  let img0 := mss_grab screen region
  let img := if img0.ch = 4 then { img0 with ch := 3 } else img0
  let zoomed :=
    if cuda_available then
      if gpu_fails then cv_resize img display_size display_size
      else cuda_resize img display_size display_size
    else cv_resize img display_size display_size
  cvt_bgr2rgb zoomed

/-- C3: for all positive `capture_size` and `display_size`, the frame
produced by one capture-loop iteration on the capture region is exactly
`display_size × display_size` pixels, whatever the capture size and
whether the GPU resize succeeded, the GPU fallback ran, or the CPU path
ran. -/
theorem c3_frame_dims (screen : ℤ → ℤ → ℕ → ℤ) (mon : ScreenRect)
    (capture_size display_size : ℕ)
    (hc : 0 < capture_size) (hd : 0 < display_size)
    (cuda_available gpu_fails : Bool) :
    (capture_iteration screen (capture_region_of mon (capture_size : ℤ))
        display_size cuda_available gpu_fails).w = display_size ∧
      (capture_iteration screen (capture_region_of mon (capture_size : ℤ))
        display_size cuda_available gpu_fails).h = display_size := by
  cases cuda_available <;> cases gpu_fails <;> exact ⟨rfl, rfl⟩

/-- Witness for C3 at `capture_size = 200`, `display_size = 300`, on
the GPU-fallback path. -/
theorem c3_frame_dims_witness :
    (0 < 200 ∧ 0 < 300) ∧
      ((capture_iteration (fun _ _ _ => 0) (capture_region_of ⟨0, 0, 2560, 1440⟩ 200)
          300 true true).w = 300 ∧
        (capture_iteration (fun _ _ _ => 0) (capture_region_of ⟨0, 0, 2560, 1440⟩ 200)
          300 true true).h = 300) :=
  ⟨⟨by decide, by decide⟩,
    c3_frame_dims (fun _ _ _ => 0) ⟨0, 0, 2560, 1440⟩ 200 300
      (by decide) (by decide) true true⟩
